/-
  Verification of the `@srttk/queue` package (a thin facade over an external
  job-queue/broker library) against its natural-language specification.

  The repository ships two example job-processor descriptors
  (`slowGreet` in src/example/queues and `groupGreet` in
  src/example/queues/group-greet.queue.ts) together with the package README,
  which documents the `QueueManager` facade and the `IQueueProcess` interface.
  The `QueueManager` implementation itself (the `lib` module the examples
  import) is not among the available source files, so the manager's
  operations below are modelled from the specification and the README's API
  reference; the example descriptors are embedded directly from their source.
-/
import Mathlib

namespace SrttkQueue

/-- Payload type of both example descriptors: `{ name: string }`. -/
structure GreetPayload where
  name : String
deriving Repr, DecidableEq

/-- Observable effects an example handler performs (console output, sleeping).
The bodies of the example handlers only log and sleep. -/
inductive Effect where
  | consoleInfo (parts : List String)
  | sleep (ms : Nat)
deriving Repr, DecidableEq

/-- The job context handed to a handler: BullMQ passes a job object whose
`data` field holds the payload; the examples destructure `{ data }`. -/
structure JobCtx where
  data : GreetPayload
deriving Repr, DecidableEq

/-- A job-processor descriptor record, as the example files write it.
`name` is always present.  The `IQueueProcess` interface documented in the
README requires a `process` field; `groupName` is optional.  The field
`action` is not part of the documented interface, but the shipped example
`groupGreet` declares its handler under that key, so the record type keeps
room for it in order to embed that file as written. -/
structure QueueProcessDecl where
  name : String
  process : Option (JobCtx → List Effect) := none
  action : Option (JobCtx → List Effect) := none
  groupName : Option String := none

/-- The documented `IQueueProcess` interface: `name` and `process` are the
required fields (README API reference).  A record conforms when its
`process` handler is present. -/
def satisfiesIQueueProcess (d : QueueProcessDecl) : Bool :=
  d.process.isSome

/-- `slowGreet` from src/example/queues (embedded from the source file):
name `"slow-greet"`, a `process` handler that logs, sleeps 8000 ms, greets,
and logs completion; no `groupName`. -/
def slowGreet : QueueProcessDecl where
  name := "slow-greet"
  process := some (fun ctx =>
    [ Effect.consoleInfo ["@slow-greet ", "started"]
    , Effect.sleep 8000
    , Effect.consoleInfo ["@slow-greet", "Hello " ++ ctx.data.name]
    , Effect.consoleInfo ["@slow-greet ", "completed"] ])

/-- `groupGreet` from src/example/queues/group-greet.queue.ts (embedded from
the source file): name `"group-greet"`, `groupName` `"app2"`, and a handler
declared under the key `action` — the file declares NO `process` field. -/
def groupGreet : QueueProcessDecl where
  name := "group-greet"
  action := some (fun ctx =>
    [ Effect.consoleInfo ["Hey ", ctx.data.name, " Geeting from app2"] ])
  groupName := some "app2"

/-- Redis/broker connection parameters (host, port), passed opaquely to the
external client. -/
structure ConnectionConfig where
  host : String := "localhost"
  port : Nat := 6379
deriving Repr, DecidableEq

/-- Constructor options of `QueueManager`: optional namespace and optional
connection settings. -/
structure ManagerOptions where
  ns : Option String := none
  connection : Option ConnectionConfig := none

/-- A broker-side queue handle owned by the manager.  `queueName` is the
(optionally namespaced) name under which the broker knows the queue;
`closed` records whether the handle has been closed by `shutdown`. -/
structure QueueHandle where
  queueName : String
  conn : ConnectionConfig
  closed : Bool := false
deriving Repr, DecidableEq

/-- A broker-side worker handle: bound to the descriptor whose handler and
lifecycle callbacks it runs; `closed` records whether `shutdown` closed it. -/
structure WorkerHandle where
  boundTo : QueueProcessDecl
  closed : Bool := false

/-- Modelled from the spec: the `QueueManager` facade state (the `lib`
source is missing).  It stores the registered descriptors, the options, and
a mapping from descriptor name to the queue handle and (optionally) the
worker handle it owns; handles start absent and are created by the explicit
start calls. -/
structure QueueManager where
  descriptors : List QueueProcessDecl
  ns : Option String := none
  conn : ConnectionConfig := {}
  queues : List (String × QueueHandle) := []
  workers : List (String × WorkerHandle) := []

/-- Modelled from the spec: `new QueueManager(queues, options?)` stores the
descriptors and options and performs no I/O — no queue or worker handle is
created at construction time. -/
def QueueManager.construct (ds : List QueueProcessDecl)
    (opts : ManagerOptions := {}) : QueueManager where
  descriptors := ds
  ns := opts.ns
  conn := opts.connection.getD {}

/-- Modelled from the spec: the broker-side queue name is the descriptor
name, optionally namespaced. -/
def brokerQueueName (ns : Option String) (n : String) : String :=
  match ns with
  | some s => s ++ ":" ++ n
  | none => n

/-- Name lookup in an association list of handles: the stored value under
the first matching key, or `none` when the name has no entry. -/
def alistFind {β : Type} (n : String) : List (String × β) → Option β
  | [] => none
  | (k, v) :: rest => if k = n then some v else alistFind n rest

/-- Modelled from the spec: `getQueue(name)` is a synchronous lookup that
returns the stored queue handle, or an absent value when none was created
for that name yet (it never throws). -/
def QueueManager.getQueue (m : QueueManager) (n : String) : Option QueueHandle :=
  alistFind n m.queues

/-- Modelled from the spec: `getWorker(name)` is a synchronous lookup that
returns the stored worker handle, or an absent value when none was created
for that name yet (it never throws). -/
def QueueManager.getWorker (m : QueueManager) (n : String) : Option WorkerHandle :=
  alistFind n m.workers

/-- Modelled from the spec: the per-descriptor step of `startQueues` — if a
queue handle already exists under the descriptor's name it is kept,
otherwise a fresh handle is created from the (namespaced) name and the
connection config. -/
def createQueues (ns : Option String) (c : ConnectionConfig) :
    List QueueProcessDecl → List (String × QueueHandle) →
    List (String × QueueHandle)
  | [], qs => qs
  | d :: ds, qs =>
      createQueues ns c ds
        (if (alistFind d.name qs).isSome then qs
         else (d.name, { queueName := brokerQueueName ns d.name, conn := c }) :: qs)

/-- Modelled from the spec: `startQueues()` — for every registered
descriptor, create a queue handle if none exists yet; idempotent per name;
creates no workers. -/
def QueueManager.startQueues (m : QueueManager) : QueueManager :=
  { m with queues := createQueues m.ns m.conn m.descriptors m.queues }

/-- Modelled from the README's worker-group rules: with a specific filter
`some g`, only descriptors whose `groupName` equals `g` match (descriptors
with a different or absent `groupName` do not); with no filter, every
registered descriptor matches ("Starts workers for all registered queues"). -/
def matchesGroup (filter : Option String) (d : QueueProcessDecl) : Bool :=
  match filter with
  | some g => d.groupName == some g
  | none => true

/-- Modelled from the spec: the per-descriptor step of `startWorkers` — for
each descriptor matching the group filter that does not already have a
running worker, create a worker bound to the descriptor (its handler and
callbacks). -/
def createWorkers (filter : Option String) :
    List QueueProcessDecl → List (String × WorkerHandle) →
    List (String × WorkerHandle)
  | [], ws => ws
  | d :: ds, ws =>
      createWorkers filter ds
        (if matchesGroup filter d && (alistFind d.name ws).isNone then
          (d.name, { boundTo := d }) :: ws
         else ws)

/-- Modelled from the spec: `startWorkers(groupName?)` — create workers for
the descriptors matching the filter, skipping descriptors that already have
a running worker; queue handles are untouched. -/
def QueueManager.startWorkers (m : QueueManager)
    (filter : Option String := none) : QueueManager :=
  { m with workers := createWorkers filter m.descriptors m.workers }

/-- A call made to the external broker; `addJob` forwards one enqueue
primitive per successful submission. -/
inductive BrokerCall where
  | enqueue (queueName jobId : String) (payload : GreetPayload)
deriving Repr, DecidableEq

/-- The broker's acknowledgment of an accepted job. -/
structure JobAck where
  queueName : String
  jobId : String
deriving Repr, DecidableEq

/-- Outcome of `addJob`: either the queue was not found, or the job was
submitted and the broker's acknowledgment is returned. -/
inductive AddJobOutcome where
  | queueNotFound (queueName : String)
  | added (ack : JobAck)
deriving Repr, DecidableEq

/-- Modelled from the spec: `addJob(queueName, jobId, payload)` looks up the
queue handle by name; if absent it fails with a "queue not found" condition
and performs no broker call; otherwise it submits the payload under the job
id to the broker.  The second component is the list of broker calls the
operation performed. -/
def QueueManager.addJob (m : QueueManager) (queueName jobId : String)
    (payload : GreetPayload) : AddJobOutcome × List BrokerCall :=
  match alistFind queueName m.queues with
  | none => (AddJobOutcome.queueNotFound queueName, [])
  | some q =>
      (AddJobOutcome.added { queueName := q.queueName, jobId := jobId },
       [BrokerCall.enqueue q.queueName jobId payload])

/-- The environment's close behaviour during shutdown: for a handle that is
still open, closing may fail with an error message (`some e`) or succeed
(`none`), keyed by the handle's name. -/
def CloseOutcome : Type := String → Option String

/-- Modelled from the spec: closing one queue handle.  An already-closed
handle is a no-op that succeeds; an open handle becomes closed and the
environment decides whether the close failed. -/
def closeQueueHandle (f : CloseOutcome) (n : String) (h : QueueHandle) :
    QueueHandle × Option String :=
  if h.closed then ({ h with closed := true }, none)
  else ({ h with closed := true }, f n)

/-- Modelled from the spec: closing one worker handle, same shape as for
queue handles. -/
def closeWorkerHandle (f : CloseOutcome) (n : String) (h : WorkerHandle) :
    WorkerHandle × Option String :=
  if h.closed then ({ h with closed := true }, none)
  else ({ h with closed := true }, f n)

/-- Modelled from the spec: close every queue handle in turn, recording for
each the name attempted, the closed handle, and any error; a failure on one
handle does not stop the remaining closes.  Returns (attempted names,
closed handles, collected errors). -/
def closeAllQueues (f : CloseOutcome) :
    List (String × QueueHandle) →
    List String × List (String × QueueHandle) × List String
  | [] => ([], [], [])
  | (n, h) :: rest =>
      let step := closeQueueHandle f n h
      let r := closeAllQueues f rest
      (n :: r.1, (n, step.1) :: r.2.1,
       match step.2 with
       | some e => e :: r.2.2
       | none => r.2.2)

/-- Modelled from the spec: close every worker handle in turn, as for
queues. -/
def closeAllWorkers (f : CloseOutcome) :
    List (String × WorkerHandle) →
    List String × List (String × WorkerHandle) × List String
  | [] => ([], [], [])
  | (n, h) :: rest =>
      let step := closeWorkerHandle f n h
      let r := closeAllWorkers f rest
      (n :: r.1, (n, step.1) :: r.2.1,
       match step.2 with
       | some e => e :: r.2.2
       | none => r.2.2)

/-- What `shutdown` reports: which queue and worker handles it attempted to
close, and the per-handle close errors it collected along the way. -/
structure ShutdownReport where
  attemptedQueues : List String
  attemptedWorkers : List String
  errors : List String
deriving Repr, DecidableEq

/-- Modelled from the spec: `shutdown()` attempts to close every created
queue and worker handle independently, collects per-handle close errors
instead of throwing them individually, and — only after every handle has
been attempted — reports a single aggregate failure if any close failed
(`Except.error` with all collected errors), or success otherwise.  The
returned manager keeps the (now closed) handles. -/
def QueueManager.shutdown (m : QueueManager) (fq fw : CloseOutcome) :
    QueueManager × ShutdownReport × Except (List String) Unit :=
  let q := closeAllQueues fq m.queues
  let w := closeAllWorkers fw m.workers
  let errs := q.2.2 ++ w.2.2
  ({ m with queues := q.2.1, workers := w.2.1 },
   { attemptedQueues := q.1, attemptedWorkers := w.1, errors := errs },
   if errs.isEmpty then Except.ok () else Except.error errs)

/-- The manager's unique-name invariant over a descriptor list: no two
registered descriptors share a name. -/
def namesUnique : List QueueProcessDecl → Bool
  | [] => true
  | d :: ds => !(ds.any (fun e => e.name == d.name)) && namesUnique ds

/-! ### Concrete fixtures (used by witnesses) -/

/-- A manager registering both example descriptors of the repository. -/
def exampleManager : QueueManager :=
  QueueManager.construct [slowGreet, groupGreet]

/-- The queue handle `startQueues` creates for `slowGreet` on
`exampleManager` (no namespace, default connection). -/
def slowGreetHandle : QueueHandle where
  queueName := "slow-greet"
  conn := {}

/-- The worker handle `startWorkers` creates for `slowGreet`. -/
def slowGreetWorker : WorkerHandle where
  boundTo := slowGreet

/-- A manager owning two open queue handles, for exercising `shutdown`. -/
def twoQueueManager : QueueManager where
  descriptors := []
  queues :=
    [ ("a", { queueName := "a", conn := {} })
    , ("b", { queueName := "b", conn := {} }) ]

/-- A close behaviour that fails (with message `"boom"`) exactly on the
handle named `"a"`. -/
def failOnA : CloseOutcome :=
  fun n => if n = "a" then some "boom" else none

/-- A close behaviour under which every close succeeds. -/
def closeOk : CloseOutcome := fun _ => none

/-! ### Lemmas about the handle maps -/

theorem alistFind_cons_self {β : Type} (n : String) (v : β)
    (l : List (String × β)) : alistFind n ((n, v) :: l) = some v := by
  simp [alistFind]

theorem alistFind_cons_ne {β : Type} {k n : String} (hne : k ≠ n) (v : β)
    (l : List (String × β)) : alistFind n ((k, v) :: l) = alistFind n l := by
  simp [alistFind, hne]

/-- `startQueues` leaves every existing queue handle in place. -/
theorem createQueues_find_of_some (ns : Option String) (c : ConnectionConfig)
    (ds : List QueueProcessDecl) :
    ∀ (qs : List (String × QueueHandle)) (n : String) (h : QueueHandle),
      alistFind n qs = some h →
      alistFind n (createQueues ns c ds qs) = some h := by
  induction ds with
  | nil => intro qs n h hq; simpa [createQueues] using hq
  | cons d ds ih =>
    intro qs n h hq
    simp only [createQueues]
    cases hd : (alistFind d.name qs).isSome with
    | true => simpa [hd] using ih qs n h hq
    | false =>
      have hne : d.name ≠ n := by
        intro e
        rw [e, hq] at hd
        simp at hd
      simp only [hd, Bool.false_eq_true, if_false]
      exact ih _ n h (by rwa [alistFind_cons_ne hne])

/-- After `startQueues`, every descriptor in the processed list has a queue
handle under its name. -/
theorem createQueues_find_isSome_of_mem (ns : Option String)
    (c : ConnectionConfig) :
    ∀ (ds : List QueueProcessDecl) (qs : List (String × QueueHandle))
      (d : QueueProcessDecl), d ∈ ds →
      (alistFind d.name (createQueues ns c ds qs)).isSome := by
  intro ds
  induction ds with
  | nil => intro qs d hd; cases hd
  | cons e ds ih =>
    intro qs d hd
    rcases List.mem_cons.mp hd with he | hd'
    · subst he
      simp only [createQueues]
      cases hq : (alistFind d.name qs).isSome with
      | true =>
        obtain ⟨h, hh⟩ := Option.isSome_iff_exists.mp hq
        simp only [hq, if_true]
        rw [createQueues_find_of_some ns c ds qs d.name h hh]
        rfl
      | false =>
        simp only [hq, Bool.false_eq_true, if_false]
        rw [createQueues_find_of_some ns c ds _ d.name _
          (alistFind_cons_self d.name _ qs)]
        rfl
    · simp only [createQueues]
      exact ih _ d hd'

/-- When every descriptor already has a queue handle, `startQueues` changes
nothing: it is idempotent per name. -/
theorem createQueues_eq_of_all_isSome (ns : Option String)
    (c : ConnectionConfig) :
    ∀ (ds : List QueueProcessDecl) (qs : List (String × QueueHandle)),
      (∀ d ∈ ds, (alistFind d.name qs).isSome) →
      createQueues ns c ds qs = qs := by
  intro ds
  induction ds with
  | nil => intro qs _; rfl
  | cons e ds ih =>
    intro qs hall
    have he : (alistFind e.name qs).isSome := hall e (List.mem_cons_self e ds)
    simp only [createQueues, he, if_true]
    exact ih qs (fun d hd => hall d (List.mem_cons_of_mem e hd))

/-- `startWorkers` leaves every existing worker handle in place. -/
theorem createWorkers_find_of_some (f : Option String)
    (ds : List QueueProcessDecl) :
    ∀ (ws : List (String × WorkerHandle)) (n : String) (h : WorkerHandle),
      alistFind n ws = some h →
      alistFind n (createWorkers f ds ws) = some h := by
  induction ds with
  | nil => intro ws n h hw; simpa [createWorkers] using hw
  | cons d ds ih =>
    intro ws n h hw
    simp only [createWorkers]
    cases hg : (matchesGroup f d && (alistFind d.name ws).isNone) with
    | false => simpa [hg] using ih ws n h hw
    | true =>
      have hnone : (alistFind d.name ws).isNone = true := by
        simp only [Bool.and_eq_true] at hg
        exact hg.2
      have hne : d.name ≠ n := by
        intro e
        rw [e, hw] at hnone
        simp at hnone
      simp only [hg, if_true]
      exact ih _ n h (by rwa [alistFind_cons_ne hne])

/-- After `startWorkers`, every processed descriptor that matches the group
filter has a worker handle under its name. -/
theorem createWorkers_find_isSome_of_mem (f : Option String) :
    ∀ (ds : List QueueProcessDecl) (ws : List (String × WorkerHandle))
      (d : QueueProcessDecl), d ∈ ds → matchesGroup f d = true →
      (alistFind d.name (createWorkers f ds ws)).isSome := by
  intro ds
  induction ds with
  | nil => intro ws d hd; cases hd
  | cons e ds ih =>
    intro ws d hd hm
    rcases List.mem_cons.mp hd with he | hd'
    · subst he
      simp only [createWorkers]
      cases hww : alistFind d.name ws with
      | some h =>
        simp only [hm, Option.isNone_some, Bool.and_false, Bool.false_eq_true,
          if_false]
        rw [createWorkers_find_of_some f ds ws d.name h hww]
        rfl
      | none =>
        simp only [hm, Option.isNone_none, Bool.and_true, if_true]
        rw [createWorkers_find_of_some f ds _ d.name _
          (alistFind_cons_self d.name _ ws)]
        rfl
    · simp only [createWorkers]
      exact ih _ d hd' hm

/-- A name with no worker handle and no matching descriptor stays without a
worker handle across `startWorkers`. -/
theorem createWorkers_find_none (f : Option String) :
    ∀ (ds : List QueueProcessDecl) (ws : List (String × WorkerHandle))
      (n : String), alistFind n ws = none →
      (∀ d ∈ ds, d.name = n → matchesGroup f d = false) →
      alistFind n (createWorkers f ds ws) = none := by
  intro ds
  induction ds with
  | nil => intro ws n hw _; simpa [createWorkers] using hw
  | cons e ds ih =>
    intro ws n hw hall
    simp only [createWorkers]
    by_cases hen : e.name = n
    · have : matchesGroup f e = false := hall e (List.mem_cons_self e ds) hen
      simp only [this, Bool.false_and, Bool.false_eq_true, if_false]
      exact ih ws n hw (fun d hd => hall d (List.mem_cons_of_mem e hd))
    · cases hg : (matchesGroup f e && (alistFind e.name ws).isNone) with
      | false =>
        simp only [hg, Bool.false_eq_true, if_false]
        exact ih ws n hw (fun d hd => hall d (List.mem_cons_of_mem e hd))
      | true =>
        simp only [hg, if_true]
        refine ih _ n (by rwa [alistFind_cons_ne hen]) ?_
        exact fun d hd => hall d (List.mem_cons_of_mem e hd)

/-- A name that is not the name of any processed descriptor and has no
queue handle yet still has none after `startQueues`. -/
theorem createQueues_find_none (ns : Option String) (c : ConnectionConfig) :
    ∀ (ds : List QueueProcessDecl) (qs : List (String × QueueHandle))
      (n : String), alistFind n qs = none →
      (∀ d ∈ ds, d.name ≠ n) →
      alistFind n (createQueues ns c ds qs) = none := by
  intro ds
  induction ds with
  | nil => intro qs n hq _; simpa [createQueues] using hq
  | cons e ds ih =>
    intro qs n hq hall
    have hen : e.name ≠ n := hall e (List.mem_cons_self e ds)
    simp only [createQueues]
    cases he : (alistFind e.name qs).isSome with
    | true =>
      simp only [he, if_true]
      exact ih qs n hq (fun d hd => hall d (List.mem_cons_of_mem e hd))
    | false =>
      simp only [he, Bool.false_eq_true, if_false]
      refine ih _ n (by rwa [alistFind_cons_ne hen]) ?_
      exact fun d hd => hall d (List.mem_cons_of_mem e hd)

/-! ### Lemmas about shutdown -/

/-- Closing a queue handle always yields a closed handle. -/
theorem closeQueueHandle_closed (f : CloseOutcome) (n : String)
    (h : QueueHandle) : (closeQueueHandle f n h).1.closed = true := by
  unfold closeQueueHandle
  split <;> rfl

/-- Closing a worker handle always yields a closed handle. -/
theorem closeWorkerHandle_closed (f : CloseOutcome) (n : String)
    (h : WorkerHandle) : (closeWorkerHandle f n h).1.closed = true := by
  unfold closeWorkerHandle
  split <;> rfl

/-- Every queue handle is attempted during shutdown, whatever the close
outcomes are: the attempted names are exactly the stored names, in order. -/
theorem closeAllQueues_attempted (f : CloseOutcome) :
    ∀ l : List (String × QueueHandle),
      (closeAllQueues f l).1 = l.map Prod.fst := by
  intro l
  induction l with
  | nil => rfl
  | cons p rest ih =>
    obtain ⟨n, h⟩ := p
    simp only [closeAllQueues, List.map_cons]
    rw [ih]

/-- Every worker handle is attempted during shutdown, whatever the close
outcomes are. -/
theorem closeAllWorkers_attempted (f : CloseOutcome) :
    ∀ l : List (String × WorkerHandle),
      (closeAllWorkers f l).1 = l.map Prod.fst := by
  intro l
  induction l with
  | nil => rfl
  | cons p rest ih =>
    obtain ⟨n, h⟩ := p
    simp only [closeAllWorkers, List.map_cons]
    rw [ih]

/-- The errors collected over the queue handles are exactly the per-handle
close errors, none dropped and none thrown early. -/
theorem closeAllQueues_errors (f : CloseOutcome) :
    ∀ l : List (String × QueueHandle),
      (closeAllQueues f l).2.2 =
        l.filterMap (fun p => (closeQueueHandle f p.1 p.2).2) := by
  intro l
  induction l with
  | nil => rfl
  | cons p rest ih =>
    obtain ⟨n, h⟩ := p
    simp only [closeAllQueues, List.filterMap_cons]
    cases hc : (closeQueueHandle f n h).2 with
    | none => simpa using ih
    | some e => simpa using ih

/-- The errors collected over the worker handles are exactly the per-handle
close errors. -/
theorem closeAllWorkers_errors (f : CloseOutcome) :
    ∀ l : List (String × WorkerHandle),
      (closeAllWorkers f l).2.2 =
        l.filterMap (fun p => (closeWorkerHandle f p.1 p.2).2) := by
  intro l
  induction l with
  | nil => rfl
  | cons p rest ih =>
    obtain ⟨n, h⟩ := p
    simp only [closeAllWorkers, List.filterMap_cons]
    cases hc : (closeWorkerHandle f n h).2 with
    | none => simpa using ih
    | some e => simpa using ih

/-- After shutdown, every queue handle the manager keeps is closed. -/
theorem closeAllQueues_all_closed (f : CloseOutcome) :
    ∀ (l : List (String × QueueHandle)) (p : String × QueueHandle),
      p ∈ (closeAllQueues f l).2.1 → p.2.closed = true := by
  intro l
  induction l with
  | nil => intro p hp; cases hp
  | cons q rest ih =>
    obtain ⟨n, h⟩ := q
    intro p hp
    simp only [closeAllQueues] at hp
    rcases List.mem_cons.mp hp with he | hp'
    · rw [he]
      exact closeQueueHandle_closed f n h
    · exact ih p hp'

/-- After shutdown, every worker handle the manager keeps is closed. -/
theorem closeAllWorkers_all_closed (f : CloseOutcome) :
    ∀ (l : List (String × WorkerHandle)) (p : String × WorkerHandle),
      p ∈ (closeAllWorkers f l).2.1 → p.2.closed = true := by
  intro l
  induction l with
  | nil => intro p hp; cases hp
  | cons q rest ih =>
    obtain ⟨n, h⟩ := q
    intro p hp
    simp only [closeAllWorkers] at hp
    rcases List.mem_cons.mp hp with he | hp'
    · rw [he]
      exact closeWorkerHandle_closed f n h
    · exact ih p hp'

/-- Closing a list of already-closed queue handles collects no errors. -/
theorem closeAllQueues_errors_nil (f : CloseOutcome) :
    ∀ l : List (String × QueueHandle),
      (∀ p ∈ l, p.2.closed = true) → (closeAllQueues f l).2.2 = [] := by
  intro l
  induction l with
  | nil => intro _; rfl
  | cons q rest ih =>
    obtain ⟨n, h⟩ := q
    intro hall
    have hc : h.closed = true := hall (n, h) (List.mem_cons_self _ _)
    simp only [closeAllQueues, closeQueueHandle, hc, if_true]
    exact ih (fun p hp => hall p (List.mem_cons_of_mem _ hp))

/-- Closing a list of already-closed worker handles collects no errors. -/
theorem closeAllWorkers_errors_nil (f : CloseOutcome) :
    ∀ l : List (String × WorkerHandle),
      (∀ p ∈ l, p.2.closed = true) → (closeAllWorkers f l).2.2 = [] := by
  intro l
  induction l with
  | nil => intro _; rfl
  | cons q rest ih =>
    obtain ⟨n, h⟩ := q
    intro hall
    have hc : h.closed = true := hall (n, h) (List.mem_cons_self _ _)
    simp only [closeAllWorkers, closeWorkerHandle, hc, if_true]
    exact ih (fun p hp => hall p (List.mem_cons_of_mem _ hp))

/-! ### Claim theorems -/

/-- C1: `startWorkers(g)` creates worker handles only for descriptors whose
`groupName` equals `g`: every registered descriptor with `groupName = g`
gets a worker handle, while a name that had no worker handle and all of
whose registered descriptors have a different or absent `groupName` remains
without a worker handle afterwards. -/
theorem startWorkers_group_filter (m : QueueManager) (g : String)
    (d : QueueProcessDecl) (hd : d ∈ m.descriptors)
    (hdg : d.groupName = some g) (n : String)
    (hn : m.getWorker n = none)
    (hng : ∀ d' ∈ m.descriptors, d'.name = n → d'.groupName ≠ some g) :
    ((m.startWorkers (some g)).getWorker d.name).isSome = true ∧
    (m.startWorkers (some g)).getWorker n = none := by
  constructor
  · have hm : matchesGroup (some g) d = true := by
      simp [matchesGroup, hdg]
    exact createWorkers_find_isSome_of_mem (some g) m.descriptors m.workers d
      hd hm
  · refine createWorkers_find_none (some g) m.descriptors m.workers n hn ?_
    intro d' hd' hdn
    simp only [matchesGroup]
    exact beq_eq_false_iff_ne.mpr (hng d' hd' hdn)

/-- Witness for C1 on the repository's own descriptors:
`startWorkers("app2")` gives `groupGreet` (group `"app2"`) a worker while
`slowGreet` (no group) stays without one. -/
theorem startWorkers_group_filter_witness :
    ((exampleManager.startWorkers (some "app2")).getWorker
      "group-greet").isSome = true ∧
    (exampleManager.startWorkers (some "app2")).getWorker "slow-greet"
      = none := by
  have hd : groupGreet ∈ exampleManager.descriptors := by
    show groupGreet ∈ [slowGreet, groupGreet]
    exact List.mem_cons_of_mem _ (List.mem_cons_self _ _)
  refine startWorkers_group_filter exampleManager "app2" groupGreet hd rfl
    "slow-greet" rfl ?_
  intro d' hd' hdn
  have hd2 : d' ∈ ([slowGreet, groupGreet] : List QueueProcessDecl) := hd'
  rcases List.mem_cons.mp hd2 with h1 | h2
  · rw [h1]
    decide
  · rcases List.mem_cons.mp h2 with h3 | h4
    · rw [h3] at hdn
      exact absurd hdn (by decide)
    · exact absurd h4 (List.not_mem_nil d')

/-- C2: `startWorkers()` with no group argument creates a worker handle for
every registered descriptor — including descriptors that do have a
`groupName` set. -/
theorem startWorkers_no_filter_starts_all (m : QueueManager)
    (d : QueueProcessDecl) (hd : d ∈ m.descriptors) :
    ((m.startWorkers none).getWorker d.name).isSome = true :=
  createWorkers_find_isSome_of_mem none m.descriptors m.workers d hd rfl

/-- Witness for C2 on the repository's own descriptors: with no filter,
both `slowGreet` (no group) and `groupGreet` (group `"app2"`) get worker
handles. -/
theorem startWorkers_no_filter_starts_all_witness :
    ((exampleManager.startWorkers none).getWorker "group-greet").isSome
      = true ∧
    ((exampleManager.startWorkers none).getWorker "slow-greet").isSome
      = true := by
  have h1 : groupGreet ∈ exampleManager.descriptors := by
    show groupGreet ∈ [slowGreet, groupGreet]
    exact List.mem_cons_of_mem _ (List.mem_cons_self _ _)
  have h2 : slowGreet ∈ exampleManager.descriptors := by
    show slowGreet ∈ [slowGreet, groupGreet]
    exact List.mem_cons_self _ _
  exact ⟨startWorkers_no_filter_starts_all exampleManager groupGreet h1,
    startWorkers_no_filter_starts_all exampleManager slowGreet h2⟩

/-- C3: the documented `IQueueProcess` interface makes `name` and `process`
the required fields, and the claim asserts every example descriptor
declares a `process` function.  `slowGreet` does, but the shipped example
`groupGreet` declares NO `process` field — its handler sits under the
undocumented key `action` — so the example file contradicts the
repository's own interface documentation. -/
theorem groupGreet_violates_IQueueProcess :
    satisfiesIQueueProcess slowGreet = true ∧
    satisfiesIQueueProcess groupGreet = false ∧
    groupGreet.process = none ∧
    groupGreet.action.isSome = true :=
  ⟨rfl, rfl, rfl, rfl⟩

/-- C6: after `startQueues()`, `getQueue` returns a present handle for the
name of every registered descriptor. -/
theorem startQueues_getQueue_isSome (m : QueueManager)
    (d : QueueProcessDecl) (hd : d ∈ m.descriptors) :
    ((m.startQueues).getQueue d.name).isSome = true :=
  createQueues_find_isSome_of_mem m.ns m.conn m.descriptors m.queues d hd

/-- Witness for C6: on the manager registering both example descriptors,
`startQueues()` makes `getQueue` defined for both names. -/
theorem startQueues_getQueue_isSome_witness :
    ((exampleManager.startQueues).getQueue "slow-greet").isSome = true ∧
    ((exampleManager.startQueues).getQueue "group-greet").isSome = true := by
  have h1 : slowGreet ∈ exampleManager.descriptors := by
    show slowGreet ∈ [slowGreet, groupGreet]
    exact List.mem_cons_self _ _
  have h2 : groupGreet ∈ exampleManager.descriptors := by
    show groupGreet ∈ [slowGreet, groupGreet]
    exact List.mem_cons_of_mem _ (List.mem_cons_self _ _)
  exact ⟨startQueues_getQueue_isSome exampleManager slowGreet h1,
    startQueues_getQueue_isSome exampleManager groupGreet h2⟩

/-- C4: for a name under which no descriptor was registered — and hence no
queue was started — `addJob` fails with the queue-not-found condition and
performs no broker call (its broker-call list is empty, leaving all
broker-side state unchanged), after any `startQueues()` and
`startWorkers(f)` sequence. -/
theorem addJob_unregistered_not_found (ds : List QueueProcessDecl)
    (opts : ManagerOptions) (f : Option String) (n jobId : String)
    (p : GreetPayload) (h : ∀ d ∈ ds, d.name ≠ n) :
    ((((QueueManager.construct ds opts).startQueues).startWorkers f).addJob
      n jobId p) = (AddJobOutcome.queueNotFound n, []) := by
  have hq : alistFind n
      ((((QueueManager.construct ds opts).startQueues).startWorkers f).queues)
      = none := by
    show alistFind n (createQueues opts.ns (opts.connection.getD {}) ds [])
      = none
    exact createQueues_find_none _ _ ds [] n rfl h
  simp only [QueueManager.addJob, hq]

/-- Witness for C4: on the manager registering both example descriptors,
started in full, `addJob("unregistered-name", "job-1", ...)` reports
not-found and performs no broker call. -/
theorem addJob_unregistered_not_found_witness :
    ((((QueueManager.construct [slowGreet, groupGreet] {}).startQueues).startWorkers
        none).addJob "unregistered-name" "job-1" { name := "" })
      = (AddJobOutcome.queueNotFound "unregistered-name", []) :=
  addJob_unregistered_not_found [slowGreet, groupGreet] {} none
    "unregistered-name" "job-1" { name := "" } (by decide)

/-- C7: `startQueues()` is idempotent per descriptor name — a second call
creates no new queue handle and leaves an existing handle in place — and it
never creates any worker handle. -/
theorem startQueues_idempotent_no_workers (m : QueueManager) (n : String)
    (h : QueueHandle) (hn : m.getQueue n = some h) :
    (m.startQueues).startQueues = m.startQueues ∧
    (m.startQueues).getQueue n = some h ∧
    (m.startQueues).workers = m.workers := by
  refine ⟨?_, ?_, rfl⟩
  · have hall : ∀ d ∈ m.descriptors,
        (alistFind d.name ((m.startQueues).queues)).isSome := fun d hd =>
      createQueues_find_isSome_of_mem m.ns m.conn m.descriptors m.queues d hd
    show ({ m.startQueues with
        queues := createQueues m.ns m.conn m.descriptors
          ((m.startQueues).queues) } : QueueManager) = m.startQueues
    rw [createQueues_eq_of_all_isSome m.ns m.conn m.descriptors _ hall]
  · exact createQueues_find_of_some m.ns m.conn m.descriptors m.queues n h hn

/-- Witness for C7: on the already-started example manager, a further
`startQueues()` changes nothing, keeps the stored `"slow-greet"` handle,
and creates no worker. -/
theorem startQueues_idempotent_no_workers_witness :
    ((exampleManager.startQueues).startQueues).startQueues
      = (exampleManager.startQueues).startQueues ∧
    ((exampleManager.startQueues).startQueues).getQueue "slow-greet"
      = some slowGreetHandle ∧
    ((exampleManager.startQueues).startQueues).workers
      = (exampleManager.startQueues).workers :=
  startQueues_idempotent_no_workers (exampleManager.startQueues)
    "slow-greet" slowGreetHandle rfl

/-- C9: `getQueue`/`getWorker` are synchronous total lookups: on a freshly
constructed manager, where no handle has been created yet, they return the
absent value for every name (being total functions into `Option`, they
cannot throw or reject); when a handle is stored under the name they return
exactly the stored handle. -/
theorem get_accessors_total (ds : List QueueProcessDecl)
    (opts : ManagerOptions) (n : String) (m : QueueManager)
    (qh : QueueHandle) (wh : WorkerHandle)
    (hq : alistFind n m.queues = some qh)
    (hw : alistFind n m.workers = some wh) :
    (QueueManager.construct ds opts).getQueue n = none ∧
    (QueueManager.construct ds opts).getWorker n = none ∧
    m.getQueue n = some qh ∧ m.getWorker n = some wh :=
  ⟨rfl, rfl, hq, hw⟩

/-- Witness for C9: before any start call the example manager has no
handles under `"slow-greet"`; after `startQueues()` and `startWorkers()`
the accessors return the stored queue and worker handles. -/
theorem get_accessors_total_witness :
    (QueueManager.construct [slowGreet, groupGreet] {}).getQueue
      "slow-greet" = none ∧
    (QueueManager.construct [slowGreet, groupGreet] {}).getWorker
      "slow-greet" = none ∧
    ((exampleManager.startQueues).startWorkers none).getQueue "slow-greet"
      = some slowGreetHandle ∧
    ((exampleManager.startQueues).startWorkers none).getWorker "slow-greet"
      = some slowGreetWorker :=
  get_accessors_total [slowGreet, groupGreet] {} "slow-greet"
    ((exampleManager.startQueues).startWorkers none) slowGreetHandle
    slowGreetWorker rfl rfl

/-- C10: the repository's example descriptors carry the non-empty, pairwise
distinct names `"slow-greet"` and `"group-greet"`, so registering both in a
single manager satisfies the unique-name invariant. -/
theorem example_descriptor_names_unique :
    slowGreet.name = "slow-greet" ∧ groupGreet.name = "group-greet" ∧
    slowGreet.name ≠ "" ∧ groupGreet.name ≠ "" ∧
    slowGreet.name ≠ groupGreet.name ∧
    namesUnique exampleManager.descriptors = true :=
  ⟨rfl, rfl, by decide, by decide, by decide, rfl⟩

/-- C5: `shutdown()` attempts to close every created queue and worker
handle independently — under arbitrary per-handle close outcomes the
attempted names cover every stored handle — collects per-handle close
errors instead of throwing them individually, and reports one aggregate
failure carrying exactly the collected errors precisely when some close
failed, only after every handle has been attempted. -/
theorem shutdown_attempts_all_aggregates (m : QueueManager)
    (fq fw : CloseOutcome) :
    (m.shutdown fq fw).2.1.attemptedQueues = m.queues.map Prod.fst ∧
    (m.shutdown fq fw).2.1.attemptedWorkers = m.workers.map Prod.fst ∧
    (m.shutdown fq fw).2.1.errors =
      m.queues.filterMap (fun p => (closeQueueHandle fq p.1 p.2).2) ++
        m.workers.filterMap (fun p => (closeWorkerHandle fw p.1 p.2).2) ∧
    ((m.shutdown fq fw).2.2 = Except.ok () ↔
      (m.shutdown fq fw).2.1.errors = []) ∧
    ((m.shutdown fq fw).2.1.errors ≠ [] →
      (m.shutdown fq fw).2.2
        = Except.error ((m.shutdown fq fw).2.1.errors)) := by
  have key : ∀ E : List String,
      ((if E.isEmpty then (Except.ok () : Except (List String) Unit)
        else Except.error E) = Except.ok () ↔ E = []) ∧
      (E ≠ [] →
        (if E.isEmpty then (Except.ok () : Except (List String) Unit)
         else Except.error E) = Except.error E) := by
    intro E
    cases E with
    | nil => simp
    | cons a l => simp
  refine ⟨?_, ?_, ?_, ?_, ?_⟩
  · exact closeAllQueues_attempted fq m.queues
  · exact closeAllWorkers_attempted fw m.workers
  · show (closeAllQueues fq m.queues).2.2 ++ (closeAllWorkers fw m.workers).2.2
      = _
    rw [closeAllQueues_errors fq m.queues, closeAllWorkers_errors fw m.workers]
  · exact (key ((closeAllQueues fq m.queues).2.2 ++
      (closeAllWorkers fw m.workers).2.2)).1
  · exact (key ((closeAllQueues fq m.queues).2.2 ++
      (closeAllWorkers fw m.workers).2.2)).2

/-- Witness for C5: on a manager with two open queue handles, a close
behaviour failing exactly on handle `"a"` still lets shutdown attempt both
handles, collect the single error, and report it once as the aggregate
failure. -/
theorem shutdown_attempts_all_aggregates_witness :
    (twoQueueManager.shutdown failOnA closeOk).2.1.attemptedQueues
      = ["a", "b"] ∧
    (twoQueueManager.shutdown failOnA closeOk).2.1.errors = ["boom"] ∧
    (twoQueueManager.shutdown failOnA closeOk).2.2
      = Except.error ["boom"] := by
  have h := shutdown_attempts_all_aggregates twoQueueManager failOnA closeOk
  refine ⟨rfl, rfl, ?_⟩
  have he := h.2.2.2.2 (by decide)
  rw [he]
  rfl

/-- C8: calling `shutdown()` a second time right after a completed
`shutdown()` does not throw: every handle is already closed, so whatever
close outcomes the environment would produce, the second call collects no
errors and reports success — an idempotent no-op on closed handles. -/
theorem shutdown_twice_ok (m : QueueManager)
    (fq fw fq2 fw2 : CloseOutcome) :
    (((m.shutdown fq fw).1).shutdown fq2 fw2).2.2 = Except.ok () := by
  have hq : (closeAllQueues fq2 (((m.shutdown fq fw).1).queues)).2.2 = [] :=
    closeAllQueues_errors_nil fq2 _ (closeAllQueues_all_closed fq m.queues)
  have hw : (closeAllWorkers fw2 (((m.shutdown fq fw).1).workers)).2.2 = [] :=
    closeAllWorkers_errors_nil fw2 _ (closeAllWorkers_all_closed fw m.workers)
  show (if ((closeAllQueues fq2 (((m.shutdown fq fw).1).queues)).2.2 ++
      (closeAllWorkers fw2 (((m.shutdown fq fw).1).workers)).2.2).isEmpty
    then (Except.ok () : Except (List String) Unit)
    else Except.error _) = Except.ok ()
  rw [hq, hw]
  rfl

end SrttkQueue
